import Mathlib

/-!
Shallow embedding of `laserdot.c`, a small AVR watchdog that mirrors a PWM
input to an output pin and injects a minimum-intensity pulse when the input
has been idle too long.

Machine integers are modelled as `Nat` with explicit reductions modulo
`2^16` (for `uint16_t`) and `2^32` (for `uint32_t`) at the points where the
C code truncates.  The build-time constant `F_CPU` is a parameter `fcpu`.
-/

namespace Laserdot

/-- Embeds the macro `STUCK` (laserdot.c line 43): max polls with the signal
not changing before a substitute pulse is injected. -/
def STUCK : Nat := 4000

/-- Embeds `us2loops` (laserdot.c lines 49-52):
`return (uint32_t)us * (F_CPU / 100000) / 50 + 1;`
The argument is a `uint16_t` (hence `us % 65536`), the product is computed
in `uint32_t` (hence `% 4294967296`), and the result is truncated to the
`uint16_t` return type (hence the final `% 65536`). -/
def us2loops (fcpu us : Nat) : Nat :=
  ((us % 65536) * (fcpu / 100000) % 4294967296 / 50 + 1) % 65536

/-- The pair of globals `pulse_high` / `pulse_low` (laserdot.c lines 37-38),
both counts of busy-wait loop iterations. -/
structure CalibratedPulse where
  pulse_high : Nat
  pulse_low : Nat
deriving DecidableEq

/-- Embeds the calibration part of `setup` (laserdot.c lines 140-144):
read the intensity byte (a `uint8_t`, hence `raw % 256`), replace the
sentinel `0xff` by the default `5`, then
`pulse_low = us2loops(1000 - raw); pulse_high = us2loops(raw);`. -/
def calibrate (fcpu raw : Nat) : CalibratedPulse :=
  let r := if raw % 256 = 255 then 5 else raw % 256
  ⟨us2loops fcpu r, us2loops fcpu (1000 - r)⟩

/-- Observable actions on port B: a write of the PB1 output level, or a
busy-wait of a number of loop iterations (`delay` / the spin inside
`send_pulse`, laserdot.c lines 55-59 and 65-66). -/
inductive Ev where
  | setOut (b : Bool)
  | wait (loops : Nat)
deriving DecidableEq

/-- The event trace of `send_pulse(PB1, width)` (laserdot.c lines 62-68):
drive PB1 high, spin `width` iterations, drive PB1 low. -/
def send_pulse_evs (width : Nat) : List Ev :=
  [Ev.setOut true, Ev.wait width, Ev.setOut false]

/-- Which inner `while` of `loop` (laserdot.c lines 95 and 106) is
executing: `low` polls while the input reads low, `high` while it reads
high. -/
inductive Phase where
  | low
  | high
deriving DecidableEq

/-- Build-time and calibration parameters of `loop`: whether
`LIMIT_PULSE_UP` is compiled in, and the two globals set by `setup`. -/
structure Config where
  limit_pulse_up : Bool
  pulse_high : Nat
  pulse_low : Nat
deriving DecidableEq

/-- The state of `loop` between two reads of `PINB`: the current inner
while (phase), the `uint16_t` countdown `tout`, and the current PB1 output
level. -/
structure State where
  phase : Phase
  tout : Nat
  out : Bool
deriving DecidableEq

/-- One iteration of `loop` (laserdot.c lines 93-117), consuming one read
of the input pin PB0.  In the low phase (line 95): an input high exits the
inner while, drives PB1 high and re-arms `tout` (lines 103-105); otherwise
`!tout--` tests `tout` against zero before the post-decrement — on zero it
sends the substitute pulse, delays `pulse_low` and re-arms `tout`
(lines 96-100), else `tout` wraps-and-decrements as a `uint16_t`.  The
high phase mirrors this with the injection only under `LIMIT_PULSE_UP`
(lines 106-116). -/
def step (cfg : Config) (s : State) (i : Bool) : State × List Ev :=
  match s.phase with
  | Phase.low =>
    if i then
      (⟨Phase.high, STUCK, true⟩, [Ev.setOut true])
    else if s.tout = 0 then
      (⟨Phase.low, STUCK, false⟩,
        send_pulse_evs cfg.pulse_high ++ [Ev.wait cfg.pulse_low])
    else
      (⟨Phase.low, (s.tout + 65535) % 65536, s.out⟩, [])
  | Phase.high =>
    if i then
      if cfg.limit_pulse_up then
        if s.tout = 0 then
          (⟨Phase.high, STUCK, false⟩,
            send_pulse_evs cfg.pulse_high ++ [Ev.wait cfg.pulse_low])
        else
          (⟨Phase.high, (s.tout + 65535) % 65536, s.out⟩, [])
      else
        (s, [])
    else
      (⟨Phase.low, STUCK, false⟩, [Ev.setOut false])

/-- Run `loop` over a finite list of input-pin samples, collecting the
final state and the concatenated event trace. -/
def run (cfg : Config) (s : State) : List Bool → State × List Ev
  | [] => (s, [])
  | i :: rest =>
    let p := step cfg s i
    let q := run cfg p.1 rest
    (q.1, p.2 ++ q.2)

/-- The PB1 output level after each successive input sample. -/
def outTrace (cfg : Config) (s : State) : List Bool → List Bool
  | [] => []
  | i :: rest => (step cfg s i).1.out :: outTrace cfg (step cfg s i).1 rest

/-- Whether the next iteration from state `s` on sample `i` takes a
substitute-pulse branch (the `!tout--` test succeeding). -/
def pulseFires (cfg : Config) (s : State) (i : Bool) : Bool :=
  match s.phase with
  | Phase.low => !i && (s.tout == 0)
  | Phase.high => i && cfg.limit_pulse_up && (s.tout == 0)

/-- No substitute pulse fires at any point while running the given input
samples from state `s`. -/
def noTimeout (cfg : Config) (s : State) : List Bool → Bool
  | [] => true
  | i :: rest => !pulseFires cfg s i && noTimeout cfg (step cfg s i).1 rest

/-- The output level agrees with the phase: low phase holds PB1 low, high
phase holds it high.  This holds at `loop` entry (setup clears PB1) and at
every phase change. -/
def stateOk (s : State) : Bool :=
  match s.phase with
  | Phase.low => !s.out
  | Phase.high => s.out

/-- One iteration of the `TEST` build of `main` (laserdot.c lines 152-155):
`delay_us(500)` then `PORTB ^= _BV(PB1)` — spin `us2loops 500` iterations,
then toggle PB1. -/
def testStep (fcpu : Nat) (out : Bool) : Bool × List Ev :=
  (!out, [Ev.wait (us2loops fcpu 500), Ev.setOut (!out)])

/-- Run `n` iterations of the test-mode loop from output level `out`. -/
def testRun (fcpu : Nat) : Nat → Bool → Bool × List Ev
  | 0, out => (out, [])
  | n + 1, out =>
    let p := testStep fcpu out
    let q := testRun fcpu n p.1
    (q.1, p.2 ++ q.2)

/-- Monotonicity of the conversion, under the hypotheses that the larger
input fits in `uint16_t` and that neither the `uint32_t` product nor the
`uint16_t` return value truncates. -/
lemma us2loops_le (fcpu a b : Nat) (hab : a ≤ b) (hb : b < 65536)
    (h1 : b * (fcpu / 100000) < 4294967296)
    (h2 : b * (fcpu / 100000) / 50 + 1 < 65536) :
    us2loops fcpu a ≤ us2loops fcpu b := by
  have ha : a < 65536 := lt_of_le_of_lt hab hb
  have hm : a * (fcpu / 100000) ≤ b * (fcpu / 100000) :=
    Nat.mul_le_mul_right _ hab
  have hd : a * (fcpu / 100000) / 50 ≤ b * (fcpu / 100000) / 50 :=
    Nat.div_le_div_right hm
  unfold us2loops
  rw [Nat.mod_eq_of_lt ha, Nat.mod_eq_of_lt hb,
      Nat.mod_eq_of_lt (lt_of_le_of_lt hm h1), Nat.mod_eq_of_lt h1,
      Nat.mod_eq_of_lt (by omega), Nat.mod_eq_of_lt h2]
  omega

/-- For raw values below the sentinel, calibration does no substitution. -/
lemma calibrate_eq (fcpu raw : Nat) (h : raw ≤ 254) :
    calibrate fcpu raw = ⟨us2loops fcpu raw, us2loops fcpu (1000 - raw)⟩ := by
  have h256 : raw % 256 = raw := Nat.mod_eq_of_lt (by omega)
  have hne : ¬ raw = 255 := by omega
  simp [calibrate, h256, hne]

/-- C2: for every stored intensity byte `raw` in `0..=254`, calibration
yields `pulse_high = us2loops raw` and `pulse_low = us2loops (1000 - raw)`,
so the two durations sum to `us2loops raw + us2loops (1000 - raw)`,
the loop-count image of an exact 1000 µs period. -/
theorem claim_C2 (fcpu raw : Nat) (h : raw ≤ 254) :
    calibrate fcpu raw = ⟨us2loops fcpu raw, us2loops fcpu (1000 - raw)⟩ ∧
    (calibrate fcpu raw).pulse_high + (calibrate fcpu raw).pulse_low =
      us2loops fcpu raw + us2loops fcpu (1000 - raw) := by
  have he := calibrate_eq fcpu raw h
  exact ⟨he, by rw [he]⟩

/-- C2 witness at `raw = 10`, `fcpu = 16000000`. -/
theorem claim_C2_witness :
    (10 : Nat) ≤ 254 ∧
    (calibrate 16000000 10 =
        ⟨us2loops 16000000 10, us2loops 16000000 (1000 - 10)⟩ ∧
      (calibrate 16000000 10).pulse_high + (calibrate 16000000 10).pulse_low =
        us2loops 16000000 10 + us2loops 16000000 (1000 - 10)) :=
  ⟨by decide, claim_C2 16000000 10 (by decide)⟩

/-- C3: calibration with the sentinel byte 255 produces exactly the same
pulse pair as calibration with the default byte 5, at every clock rate. -/
theorem claim_C3 (fcpu : Nat) : calibrate fcpu 255 = calibrate fcpu 5 := by
  simp [calibrate]

/-- C4 counterexample: at `F_CPU = 16 MHz` the stored byte 251 (not the
sentinel) yields `pulse_high = 804`, which exceeds
`us2loops 16000000 250 = 801`. -/
theorem claim_C4_counterexample :
    ¬ (calibrate 16000000 251).pulse_high ≤ us2loops 16000000 250 := by
  decide

/-- C4 amended: for every stored intensity byte at most 250 (rather than
every non-sentinel byte: bytes 251-254 exceed the cap), and whenever the
conversion of 250 µs does not overflow its `uint32_t` product or its
`uint16_t` result, `pulse_high` is at most `us2loops 250`. -/
theorem claim_C4_amended (fcpu raw : Nat) (h : raw ≤ 250)
    (h1 : 250 * (fcpu / 100000) < 4294967296)
    (h2 : 250 * (fcpu / 100000) / 50 + 1 < 65536) :
    (calibrate fcpu raw).pulse_high ≤ us2loops fcpu 250 := by
  have he := calibrate_eq fcpu raw (by omega)
  rw [he]
  exact us2loops_le fcpu raw 250 h (by omega) h1 h2

/-- C4 amended witness at `raw = 10`, `fcpu = 16000000`. -/
theorem claim_C4_amended_witness :
    ((10 : Nat) ≤ 250 ∧ 250 * (16000000 / 100000) < 4294967296 ∧
      250 * (16000000 / 100000) / 50 + 1 < 65536) ∧
    (calibrate 16000000 10).pulse_high ≤ us2loops 16000000 250 :=
  ⟨⟨by decide, by decide, by decide⟩,
    claim_C4_amended 16000000 10 (by decide) (by decide) (by decide)⟩

/-- C6 counterexample: at `F_CPU = 9.6 MHz` (the ATTINY13 clock named in
the source), the input 34133 µs makes the pre-truncation value
`34133 * 96 / 50 + 1 = 65536`, which the `uint16_t` return truncates to 0,
so `us2loops` does not return at least 1 for every input. -/
theorem claim_C6_counterexample : ¬ 1 ≤ us2loops 9600000 34133 := by
  decide

/-- C6 amended: `us2loops` returns at least 1 for every input whose
converted value does not overflow the `uint32_t` product or the `uint16_t`
return (the code documents the limit of 64k loops); in particular
`us2loops fcpu 0 = 1` unconditionally at every clock rate. -/
theorem claim_C6_amended (fcpu us : Nat)
    (h1 : (us % 65536) * (fcpu / 100000) < 4294967296)
    (h2 : (us % 65536) * (fcpu / 100000) / 50 + 1 < 65536) :
    1 ≤ us2loops fcpu us ∧ us2loops fcpu 0 = 1 := by
  constructor
  · unfold us2loops
    rw [Nat.mod_eq_of_lt h1, Nat.mod_eq_of_lt h2]
    omega
  · simp [us2loops]

/-- C6 amended witness at `us = 0`, `fcpu = 9600000`. -/
theorem claim_C6_amended_witness :
    ((0 % 65536) * (9600000 / 100000) < 4294967296 ∧
      (0 % 65536) * (9600000 / 100000) / 50 + 1 < 65536) ∧
    (1 ≤ us2loops 9600000 0 ∧ us2loops 9600000 0 = 1) :=
  ⟨⟨by decide, by decide⟩, claim_C6_amended 9600000 0 (by decide) (by decide)⟩

/-- C7: `us2loops` is monotonically non-decreasing within the
non-overflowing input range: if `a ≤ b`, `b` fits in `uint16_t`, and the
conversion of `b` overflows neither the `uint32_t` product nor the
`uint16_t` return, then `us2loops a ≤ us2loops b`. -/
theorem claim_C7 (fcpu a b : Nat) (hab : a ≤ b) (hb : b < 65536)
    (h1 : b * (fcpu / 100000) < 4294967296)
    (h2 : b * (fcpu / 100000) / 50 + 1 < 65536) :
    us2loops fcpu a ≤ us2loops fcpu b :=
  us2loops_le fcpu a b hab hb h1 h2

/-- C7 witness at `a = 100`, `b = 200`, `fcpu = 16000000`. -/
theorem claim_C7_witness :
    ((100 : Nat) ≤ 200 ∧ (200 : Nat) < 65536 ∧
      200 * (16000000 / 100000) < 4294967296 ∧
      200 * (16000000 / 100000) / 50 + 1 < 65536) ∧
    us2loops 16000000 100 ≤ us2loops 16000000 200 :=
  ⟨⟨by decide, by decide, by decide, by decide⟩,
    claim_C7 16000000 100 200 (by decide) (by decide) (by decide) (by decide)⟩

/-- The event trace of a run over concatenated input lists splits at the
intermediate state. -/
lemma run_append (cfg : Config) : ∀ (xs ys : List Bool) (s : State),
    run cfg s (xs ++ ys) =
      ((run cfg (run cfg s xs).1 ys).1,
        (run cfg s xs).2 ++ (run cfg (run cfg s xs).1 ys).2)
  | [], ys, s => by simp [run]
  | x :: xs, ys, s => by
    simp [run, run_append cfg xs ys (step cfg s x).1, List.append_assoc]

/-- Polling a low input from the low phase with `tout = t` for `t` samples
emits nothing and counts `tout` down to zero. -/
lemma run_low_poll (cfg : Config) : ∀ (t : Nat) (out : Bool), t < 65536 →
    run cfg ⟨Phase.low, t, out⟩ (List.replicate t false) =
      (⟨Phase.low, 0, out⟩, [])
  | 0, _, _ => rfl
  | t + 1, out, h => by
    have hs : step cfg ⟨Phase.low, t + 1, out⟩ false =
        (⟨Phase.low, t, out⟩, []) := by
      have hm : (t + 1 + 65535) % 65536 = t := by omega
      simp [step, hm]
    rw [List.replicate_succ]
    simp only [run, hs]
    simp [run_low_poll cfg t out (by omega)]

/-- C1: while the input reads low continuously, the low-phase poll leaves
the output untouched for exactly `tout` samples, and on the next sample —
when the countdown reaches zero — it emits the substitute pulse (output
high for `pulse_high` iterations, then low, then a `pulse_low` wait) and
re-arms `tout` to `STUCK`, so the output is never left fully off for more
than the timeout budget. -/
theorem claim_C1 (cfg : Config) (t : Nat) (out : Bool) (ht : t ≤ STUCK) :
    run cfg ⟨Phase.low, t, out⟩ (List.replicate t false) =
      (⟨Phase.low, 0, out⟩, []) ∧
    run cfg ⟨Phase.low, t, out⟩ (List.replicate (t + 1) false) =
      (⟨Phase.low, STUCK, false⟩,
        send_pulse_evs cfg.pulse_high ++ [Ev.wait cfg.pulse_low]) := by
  have hlt : t < 65536 := by
    have : STUCK = 4000 := rfl
    omega
  refine ⟨run_low_poll cfg t out hlt, ?_⟩
  rw [List.replicate_succ', run_append, run_low_poll cfg t out hlt]
  simp [run, step]

/-- C1 witness at `t = 2`. -/
theorem claim_C1_witness :
    (2 : Nat) ≤ STUCK ∧
    (run ⟨false, 7, 13⟩ ⟨Phase.low, 2, false⟩ (List.replicate 2 false) =
        (⟨Phase.low, 0, false⟩, []) ∧
      run ⟨false, 7, 13⟩ ⟨Phase.low, 2, false⟩ (List.replicate 3 false) =
        (⟨Phase.low, STUCK, false⟩,
          send_pulse_evs 7 ++ [Ev.wait 13])) :=
  ⟨by decide, claim_C1 ⟨false, 7, 13⟩ 2 false (by decide)⟩

/-- Every step keeps `tout` within the `STUCK` budget, so the transient
`uint16_t` wraparound of `tout--` past zero is never observable. -/
lemma step_tout_le (cfg : Config) (s : State) (i : Bool)
    (hs : s.tout ≤ STUCK) : (step cfg s i).1.tout ≤ STUCK := by
  rcases s with ⟨ph, t, o⟩
  have ht : t ≤ 4000 := hs
  cases ph <;> cases i
  · by_cases h0 : t = 0
    · simp [step, STUCK, h0]
    · simp [step, STUCK, h0]; omega
  · simp [step, STUCK]
  · simp [step, STUCK]
  · by_cases hls : cfg.limit_pulse_up = true
    · by_cases h0 : t = 0
      · simp [step, STUCK, hls, h0]
      · simp [step, STUCK, hls, h0]; omega
    · simp only [step, hls, if_false, Bool.false_eq_true]
      exact hs

/-- C10: the `!tout--` test reads the counter before the post-decrement,
so from a fresh low-phase state (`tout = STUCK`) a continuously low input
fires the substitute pulse on exactly the `(STUCK+1)`-th poll — the first
`STUCK` polls emit nothing — re-arming `tout` to `STUCK` in that same
iteration; and every step preserves `tout ≤ STUCK`, so the 16-bit
wraparound of decrementing `tout` past zero is never observable in any
later iteration. -/
theorem claim_C10 (cfg : Config) (out : Bool) (s : State) (i : Bool)
    (hs : s.tout ≤ STUCK) :
    run cfg ⟨Phase.low, STUCK, out⟩ (List.replicate STUCK false) =
      (⟨Phase.low, 0, out⟩, []) ∧
    run cfg ⟨Phase.low, STUCK, out⟩ (List.replicate (STUCK + 1) false) =
      (⟨Phase.low, STUCK, false⟩,
        send_pulse_evs cfg.pulse_high ++ [Ev.wait cfg.pulse_low]) ∧
    (step cfg s i).1.tout ≤ STUCK := by
  have hlt : STUCK < 65536 := by decide
  refine ⟨run_low_poll cfg STUCK out hlt, ?_, step_tout_le cfg s i hs⟩
  rw [List.replicate_succ', run_append, run_low_poll cfg STUCK out hlt]
  simp [run, step]

/-- A step on which no substitute pulse fires drives the output to the
level just read on the input, preserves the phase/output agreement, and
emits no busy-wait event. -/
lemma step_mirror (cfg : Config) (s : State) (i : Bool)
    (hok : stateOk s = true) (hnp : pulseFires cfg s i = false) :
    (step cfg s i).1.out = i ∧ stateOk (step cfg s i).1 = true ∧
      ∀ w, Ev.wait w ∉ (step cfg s i).2 := by
  rcases s with ⟨ph, t, o⟩
  cases ph <;> cases i
  · have ho : o = false := by simpa [stateOk] using hok
    have ht : ¬ t = 0 := by simpa [pulseFires] using hnp
    simp [step, ht, stateOk, ho]
  · simp [step, stateOk]
  · simp [step, stateOk]
  · have ho : o = true := by simpa [stateOk] using hok
    by_cases hls : cfg.limit_pulse_up = true
    · have ht : ¬ t = 0 := by simpa [pulseFires, hls] using hnp
      simp [step, hls, ht, stateOk, ho]
    · simp [step, hls, stateOk, ho]

/-- Over any sample list on which no pulse fires, the output level after
each sample is that sample, and the run emits no busy-wait. -/
lemma run_mirror (cfg : Config) : ∀ (ins : List Bool) (s : State),
    stateOk s = true → noTimeout cfg s ins = true →
    outTrace cfg s ins = ins ∧ ∀ w, Ev.wait w ∉ (run cfg s ins).2
  | [], s, _, _ => by simp [outTrace, run]
  | i :: rest, s, hok, hnt => by
    rw [noTimeout] at hnt
    simp only [Bool.and_eq_true, Bool.not_eq_eq_eq_not, Bool.not_true] at hnt
    obtain ⟨hout, hok2, hw⟩ := step_mirror cfg s i hok hnt.1
    obtain ⟨htr, hrun⟩ := run_mirror cfg rest (step cfg s i).1 hok2 hnt.2
    refine ⟨by simp [outTrace, hout, htr], ?_⟩
    intro w
    simp only [run, List.mem_append, not_or]
    exact ⟨hw w, hrun w⟩

/-- C5: for every execution in which the input level changes before the
countdown reaches zero (no pulse branch is ever taken), the output exactly
mirrors the input — after each sample the output equals that sample, an
observed high drives the output high in the same step and an observed low
drives it low — and no substitute pulse (busy-wait event) is emitted. -/
theorem claim_C5 (cfg : Config) (s : State) (ins : List Bool)
    (hok : stateOk s = true) (hnt : noTimeout cfg s ins = true) :
    outTrace cfg s ins = ins ∧ ∀ w, Ev.wait w ∉ (run cfg s ins).2 :=
  run_mirror cfg ins s hok hnt

/-- C5 witness from the initial state over a toggling input. -/
theorem claim_C5_witness :
    (stateOk ⟨Phase.low, 4000, false⟩ = true ∧
      noTimeout ⟨false, 7, 13⟩ ⟨Phase.low, 4000, false⟩
        [true, false, true, true, false] = true) ∧
    (outTrace ⟨false, 7, 13⟩ ⟨Phase.low, 4000, false⟩
        [true, false, true, true, false] = [true, false, true, true, false] ∧
      ∀ w, Ev.wait w ∉
        (run ⟨false, 7, 13⟩ ⟨Phase.low, 4000, false⟩
          [true, false, true, true, false]).2) :=
  ⟨⟨by decide, by decide⟩,
    claim_C5 ⟨false, 7, 13⟩ ⟨Phase.low, 4000, false⟩
      [true, false, true, true, false] (by decide) (by decide)⟩

/-- C8: with `LIMIT_PULSE_UP` disabled, the high phase performs no
injection at all: as long as the input reads high, any number of polls
leaves the state (including the output level and `tout`) unchanged and
emits no event. -/
theorem claim_C8 (cfg : Config) (s : State) (n : Nat)
    (hup : cfg.limit_pulse_up = false) (hph : s.phase = Phase.high) :
    run cfg s (List.replicate n true) = (s, []) := by
  rcases s with ⟨ph, t, o⟩
  cases hph
  induction n with
  | zero => rfl
  | succ n ih =>
    rw [List.replicate_succ]
    simp only [run]
    simp [step, hup, ih]

/-- C8 witness: three high polls from a high-phase state. -/
theorem claim_C8_witness :
    (Config.limit_pulse_up ⟨false, 7, 13⟩ = false ∧
      State.phase ⟨Phase.high, 4000, true⟩ = Phase.high) ∧
    run ⟨false, 7, 13⟩ ⟨Phase.high, 4000, true⟩ (List.replicate 3 true) =
      (⟨Phase.high, 4000, true⟩, []) :=
  ⟨⟨by decide, by decide⟩,
    claim_C8 ⟨false, 7, 13⟩ ⟨Phase.high, 4000, true⟩ 3 rfl rfl⟩

/-- Each further test-mode iteration appends one busy-wait of
`us2loops 500` iterations followed by one toggle of the output. -/
lemma testRun_add (fcpu : Nat) : ∀ (m n : Nat) (b : Bool),
    testRun fcpu (m + n) b =
      ((testRun fcpu n (testRun fcpu m b).1).1,
        (testRun fcpu m b).2 ++ (testRun fcpu n (testRun fcpu m b).1).2)
  | 0, n, b => by simp [testRun]
  | m + 1, n, b => by
    have hmn : m + 1 + n = (m + n) + 1 := by omega
    rw [hmn]
    simp only [testRun, testStep]
    rw [testRun_add fcpu m n (!b)]
    simp [List.append_assoc]

lemma testRun_succ (fcpu : Nat) (n : Nat) (b : Bool) :
    testRun fcpu (n + 1) b =
      (!(testRun fcpu n b).1,
        (testRun fcpu n b).2 ++
          [Ev.wait (us2loops fcpu 500), Ev.setOut (!(testRun fcpu n b).1)]) := by
  rw [testRun_add fcpu n 1 b]
  simp [testRun, testStep]

/-- The test-mode output level alternates with the iteration count. -/
lemma testRun_parity (fcpu : Nat) : ∀ (n : Nat) (b : Bool),
    (testRun fcpu n b).1 = (if n % 2 = 0 then b else !b)
  | 0, _ => rfl
  | n + 1, b => by
    simp only [testRun, testStep]
    rw [testRun_parity fcpu n (!b)]
    by_cases h : n % 2 = 0
    · have h1 : (n + 1) % 2 ≠ 0 := by omega
      simp [h, h1]
    · have h1 : (n + 1) % 2 = 0 := by omega
      simp [h, h1]

/-- C9: in test mode every iteration busy-waits `us2loops 500` iterations
(the loop-count image of 500 µs) and then toggles the output pin, so the
output level forever alternates with the iteration count: a 1 kHz square
wave with equal half-periods when the calibration matches the clock. -/
theorem claim_C9 (fcpu n : Nat) (b : Bool) :
    testRun fcpu (n + 1) b =
      (!(testRun fcpu n b).1,
        (testRun fcpu n b).2 ++
          [Ev.wait (us2loops fcpu 500), Ev.setOut (!(testRun fcpu n b).1)]) ∧
    (testRun fcpu n b).1 = (if n % 2 = 0 then b else !b) :=
  ⟨testRun_succ fcpu n b, testRun_parity fcpu n b⟩

/-- C10 witness. -/
theorem claim_C10_witness :
    State.tout ⟨Phase.high, 4000, true⟩ ≤ STUCK ∧
    (run ⟨true, 3, 5⟩ ⟨Phase.low, STUCK, false⟩ (List.replicate STUCK false) =
        (⟨Phase.low, 0, false⟩, []) ∧
      run ⟨true, 3, 5⟩ ⟨Phase.low, STUCK, false⟩
          (List.replicate (STUCK + 1) false) =
        (⟨Phase.low, STUCK, false⟩,
          send_pulse_evs 3 ++ [Ev.wait 5]) ∧
      (step ⟨true, 3, 5⟩ ⟨Phase.high, 4000, true⟩ true).1.tout ≤ STUCK) :=
  ⟨by decide, claim_C10 ⟨true, 3, 5⟩ false ⟨Phase.high, 4000, true⟩ true
    (by decide)⟩

end Laserdot
